import Mathlib

/-!
Verification development for the Mython interpreter
(indentation-sensitive lexer, value runtime and AST evaluator).

The definitions below are a shallow embedding of the C++ sources:
  * `src/unnamed/part_000`  (lexer.cpp): `Lexer::FindNextToken` and its
    `Proc...` helpers, embedded as a state machine over `LexState`;
  * `src/mython/runtime.cpp`: `IsTrue`, `ClassInstance::Call`,
    `Class::GetMethod`, `Equal`/`Less` and the derived comparators;
  * `src/mython/statement.cpp`: every `Statement::Execute` override,
    embedded as the fueled evaluator `run` over a `Task` sum
    (one `Task` branch per C++ function in the recursive nest).

C++ exceptions are modelled by explicit result constructors:
a thrown `ObjectHolder` (the `Return` channel) becomes `RRes.rret`,
a thrown `runtime_error` becomes `RRes.rerr`.  The ownership handle
`ObjectHolder` is modelled by `Obj`; class instances live on an explicit
heap (`EState.heap`) and `Obj.vinst a` is a (shared) reference to heap
cell `a`, mirroring `ObjectHolder::Share`.  Recursion through method
bodies is not structural in C++, so every evaluator function takes a
fuel argument; fuel exhaustion is the distinct result `rtimeout` and
never pretends to be a value or an error.
-/

namespace Mython

/-! ## Lexer (src/unnamed/part_000)

Token variants from the `token_type` namespace. -/

inductive Tok
  | number (value : Nat)
  | id (value : String)
  | str (value : String)
  | ch (value : Char)
  | kwClass
  | kwReturn
  | kwIf
  | kwElse
  | kwDef
  | kwPrint
  | kwAnd
  | kwOr
  | kwNot
  | kwNone
  | kwTrue
  | kwFalse
  | eq
  | notEq
  | lessOrEq
  | greaterOrEq
  | newline
  | indent
  | dedent
  | eof
  deriving DecidableEq, Repr

/-- Lexer state.  `input` models the `std::istream` as the list of not yet
consumed characters; `tokens` is the `tokens_` vector of emitted tokens.
The fields `is_start_line`, `indent` (the target indentation of the current
line) and `cur_indent` (the indentation already communicated via
`Indent`/`Dedent` tokens) are the members of `Lexer`.  Their initial values
(start of line, both counters zero) are not in `src/` (they live in
`lexer.h`); they are modelled from the spec: construction starts at a line
start with no indentation communicated. -/
structure LexState where
  input : List Char
  tokens : List Tok
  is_start_line : Bool
  indent : Nat
  cur_indent : Nat
  deriving DecidableEq, Repr

/-- The run of further `' '` characters consumed by the `while` loop of
`Lexer::ProcSpace` (via `peek`/`get`). -/
def countSpaces : List Char → Nat
  | ' ' :: rest => countSpaces rest + 1
  | _ => 0

/-- Value of a digit string, as computed by `std::stoi` on the digits
collected by `Lexer::ProcNumber` (overflow ignored: inputs are small). -/
def digitsToNat (acc : Nat) : List Char → Nat
  | [] => acc
  | c :: rest => digitsToNat (acc * 10 + (c.toNat - '0'.toNat)) rest

/-- Continuation characters of a word in `Lexer::ProcWord`:
`next_char == '_' || std::isalpha(next_char) || std::isdigit(next_char)`. -/
def isWordChar (c : Char) : Bool :=
  c == '_' || c.isAlpha || c.isDigit

/-- `std::ispunct` in the C locale: printable ASCII that is neither
alphanumeric nor space. -/
def isPunctChar (c : Char) : Bool :=
  33 ≤ c.toNat && c.toNat ≤ 126 && !c.isAlphanum

/-- The `keywords_` table (not in `src/`, modelled from the spec's keyword
table: recognized identifiers promoted to keyword tokens). -/
def keywordTok : String → Option Tok
  | "class" => some .kwClass
  | "return" => some .kwReturn
  | "if" => some .kwIf
  | "else" => some .kwElse
  | "def" => some .kwDef
  | "print" => some .kwPrint
  | "and" => some .kwAnd
  | "or" => some .kwOr
  | "not" => some .kwNot
  | "None" => some .kwNone
  | "True" => some .kwTrue
  | "False" => some .kwFalse
  | _ => none

/-- The `while(next_char != quotes)` loop of `Lexer::ProcShielding`.
Returns the accumulated string value and the remaining input (with the
closing quote consumed, like the final `input_.get()`).  On a `'\\'`, the
backslash and the following character are both consumed and only the four
recognized escapes contribute a character.  An unterminated literal makes
the C++ loop spin forever on EOF; that unreachable-for-wellformed-input
case is modelled by stopping with the accumulated value. -/
def shieldLoop (quotes : Char) : List Char → String → String × List Char
  | [], acc => (acc, [])
  | c :: rest, acc =>
    if c = quotes then (acc, rest)
    else if c = '\\' then
      match rest with
      | [] => (acc, [])
      | e :: rest2 =>
        let acc' :=
          if e = '\'' then acc.push '\''
          else if e = '"' then acc.push '"'
          else if e = 'n' then acc.push '\n'
          else if e = 't' then acc.push '\t'
          else acc
        shieldLoop quotes rest2 acc'
    else shieldLoop quotes rest (acc.push c)

/-- `std::getline` inside `Lexer::ProcComment`: consume up to and including
the next `'\n'` (or to EOF). -/
def dropLine : List Char → List Char
  | [] => []
  | '\n' :: rest => rest
  | _ :: rest => dropLine rest

/-- `Lexer::ProcEndStream`.  Note that when `is_start_line` holds with
`cur_indent > 0` and `cur_indent == indent`, neither inner branch fires and
no token at all is emitted. -/
def procEndStream (s : LexState) : LexState :=
  if s.is_start_line && decide (s.cur_indent > 0) then
    if s.cur_indent < s.indent then
      { s with cur_indent := s.cur_indent + 1, tokens := s.tokens ++ [.indent] }
    else if s.cur_indent > s.indent then
      { s with cur_indent := s.cur_indent - 1, tokens := s.tokens ++ [.dedent] }
    else s
  else
    if !s.is_start_line then
      { s with is_start_line := true, tokens := s.tokens ++ [.newline] }
    else
      { s with tokens := s.tokens ++ [.eof] }

/-- `Lexer::FindNextToken` together with the `Proc...` helpers it calls.
The helpers that re-enter `FindNextToken` (`ProcSpace`, the blank-line
branch of `ProcEndOfLine`, `ProcComment`) appear as fueled recursive
calls; the other helpers are inlined at their single call site.  Fuel
exhaustion returns the state unchanged (unreachable with the fuel used by
`NextToken`, since every re-entry has consumed input). -/
def findNextToken : Nat → LexState → LexState
  | 0, s => s
  | f + 1, s =>
    match s.input with
    | [] => procEndStream s
    | c :: rest =>
      if c = ' ' then
        -- Lexer::ProcSpace
        let k := countSpaces rest
        let space_count := 1 + k
        findNextToken f
          { s with
            input := rest.drop k
            indent := if s.is_start_line then space_count / 2 else s.indent }
      else if c = '\n' then
        -- Lexer::ProcEndOfLine
        if s.is_start_line then
          findNextToken f { s with input := rest }
        else
          { s with input := rest, indent := 0, is_start_line := true,
                   tokens := s.tokens ++ [.newline] }
      else if s.cur_indent ≠ s.indent && s.is_start_line then
        -- Lexer::ProcIndent (the character just read is ungot)
        if s.cur_indent < s.indent then
          { s with cur_indent := s.cur_indent + 1, tokens := s.tokens ++ [.indent] }
        else if s.cur_indent > s.indent then
          { s with cur_indent := s.cur_indent - 1, tokens := s.tokens ++ [.dedent] }
        else
          { s with input := rest }
      else if c.isDigit then
        -- Lexer::ProcNumber
        { s with
          input := rest.dropWhile Char.isDigit
          tokens := s.tokens ++ [.number (digitsToNat (c.toNat - '0'.toNat) (rest.takeWhile Char.isDigit))]
          is_start_line := false }
      else if c == '_' || c.isAlpha || c.isDigit then
        -- Lexer::ProcWord
        let word := String.mk (c :: rest.takeWhile isWordChar)
        let tok := match keywordTok word with
          | some k => k
          | none => .id word
        { s with
          input := rest.dropWhile isWordChar
          tokens := s.tokens ++ [tok]
          is_start_line := false }
      else if c = '\'' || c = '"' then
        -- Lexer::ProcShielding
        let p := shieldLoop c rest ""
        { s with input := p.2, tokens := s.tokens ++ [.str p.1], is_start_line := false }
      else if c = '#' then
        -- Lexer::ProcComment
        let rest2 := dropLine rest
        match rest2 with
        | [] => { s with input := [], tokens := s.tokens ++ [.eof] }
        | _ => findNextToken f { s with input := '\n' :: rest2 }
      else if c = '=' && rest.head? = some '=' then
        { s with input := rest.tail, tokens := s.tokens ++ [.eq] }
      else if c = '!' && rest.head? = some '=' then
        { s with input := rest.tail, tokens := s.tokens ++ [.notEq] }
      else if c = '<' && rest.head? = some '=' then
        { s with input := rest.tail, tokens := s.tokens ++ [.lessOrEq] }
      else if c = '>' && rest.head? = some '=' then
        { s with input := rest.tail, tokens := s.tokens ++ [.greaterOrEq] }
      else if isPunctChar c then
        { s with input := rest, tokens := s.tokens ++ [.ch c], is_start_line := false }
      else
        { s with input := rest }

/-- Fuel that strictly dominates the recursion depth of `FindNextToken`:
every re-entry has consumed at least one input character per two fuel
units (the comment path may put one `'\n'` back). -/
def lexFuel (s : LexState) : Nat :=
  2 * s.input.length + 4

/-- `Lexer::NextToken` (without the final `tokens_.back()` read). -/
def NextToken (s : LexState) : LexState :=
  findNextToken (lexFuel s) s

/-- `Lexer::CurrentToken`: `tokens_.back()`, i.e. the most recently emitted
token (`none` only before anything was emitted). -/
def CurrentToken (s : LexState) : Option Tok :=
  s.tokens.getLast?

/-- The `Lexer` constructor: fresh state on the given input, then one
implicit `FindNextToken`. -/
def lexInit (source : String) : LexState :=
  NextToken { input := source.data, tokens := [], is_start_line := true,
              indent := 0, cur_indent := 0 }

/-- `n` further calls to `NextToken` after construction. -/
def nextTokenIter : Nat → LexState → LexState
  | 0, s => s
  | n + 1, s => NextToken (nextTokenIter n s)

/-! ## Value runtime and AST evaluator
(src/mython/runtime.cpp and src/mython/statement.cpp)

An `ObjectHolder` is modelled by `Obj`:
an empty holder (`ObjectHolder::None`) is `vnone`; holders over the
primitive value objects `Number`, `String`, `Bool` carry the value
directly (those objects are immutable); a holder over a `Class` carries
the index of the class in the fixed class table; a holder over a
`ClassInstance` carries the heap address of the instance — mutation of an
instance's fields through any holder of it is visible through all others,
exactly the `shared_ptr` behaviour of the source. -/

inductive Obj
  | vnone
  | vnum (n : Int)
  | vstr (s : String)
  | vbool (b : Bool)
  | vclass (cid : Nat)
  | vinst (a : Nat)
  deriving DecidableEq, Repr

/-- The six comparator function pointers a `Comparison` node can hold
(`runtime::Equal`, `NotEqual`, `Less`, `Greater`, `LessOrEqual`,
`GreaterOrEqual`). -/
inductive CmpKind
  | ceq
  | cne
  | clt
  | cgt
  | cle
  | cge
  deriving DecidableEq, Repr

/-- The AST statement nodes of `ast` (src/mython/statement.cpp), one
constructor per `Statement` subclass whose `Execute` is defined there.
`fieldassign` carries the components of its `VariableValue object_`
member; `newinstance` carries the heap address of the `ClassInstance`
member the node owns (`class_instance_`); `classdef` carries the
`ObjectHolder cls_` member. -/
inductive Stmt
  | assign (var : String) (rv : Stmt)
  | varval (var_name : String) (dotted_ids : List String)
  | printargs (args : List Stmt)
  | methodcall (object : Stmt) (method : String) (args : List Stmt)
  | stringify (argument : Stmt)
  | addop (lhs rhs : Stmt)
  | subop (lhs rhs : Stmt)
  | multop (lhs rhs : Stmt)
  | divop (lhs rhs : Stmt)
  | compound (args : List Stmt)
  | returnstmt (statement : Stmt)
  | classdef (cls : Obj)
  | fieldassign (object_name : String) (object_dotted : List String)
      (field_name : String) (rv : Stmt)
  | ifelse (condition if_body : Stmt) (else_body : Option Stmt)
  | orop (lhs rhs : Stmt)
  | andop (lhs rhs : Stmt)
  | notop (argument : Stmt)
  | comparison (cmp : CmpKind) (lhs rhs : Stmt)
  | newinstance (a : Nat) (args : List Stmt)
  | methodbody (body : Stmt)

/-- `runtime::Method`: name, formal parameter names (without `self`), and
the body statement. -/
structure Method where
  name : String
  formal_params : List String
  body : Stmt

/-- `runtime::Class`: name, method list (as passed to the constructor) and
optional parent, as an index into the class table. -/
structure ClassD where
  name : String
  methods : List Method
  parent : Option Nat

/-- A `runtime::ClassInstance`: its class and its field `Closure`. -/
structure Inst where
  cls : Nat
  fields : List (String × Obj)
  deriving DecidableEq, Repr

/-- The mutable world outside the closures: the instances (addressed by
position) and the `Context` output stream's accumulated text. -/
structure EState where
  heap : List Inst
  output : String
  deriving DecidableEq, Repr

/-- A `runtime::Closure` (`unordered_map<string, ObjectHolder>`), as an
association list with overwrite-on-insert. -/
abbrev Closure := List (String × Obj)

def listGet {α : Type} : List α → Nat → Option α
  | [], _ => none
  | x :: _, 0 => some x
  | _ :: rest, n + 1 => listGet rest n

def listSet {α : Type} : List α → Nat → α → List α
  | [], _, _ => []
  | _ :: rest, 0, y => y :: rest
  | x :: rest, n + 1, y => x :: listSet rest n y

/-- `closure.find(name)`. -/
def lookupClosure : Closure → String → Option Obj
  | [], _ => none
  | (k, v) :: rest, n => if k = n then some v else lookupClosure rest n

/-- `closure[name] = value` (overwrite or append). -/
def insertClosure : Closure → String → Obj → Closure
  | [], n, v => [(n, v)]
  | (k, w) :: rest, n, v =>
    if k = n then (k, v) :: rest else (k, w) :: insertClosure rest n v

/-- Lookup in one class's own `methods_` map.  The `Class` constructor
fills the map from the method vector with later entries overwriting
earlier ones of the same name, hence the left fold. -/
def lookupMethod (methods : List Method) (name : String) : Option Method :=
  methods.foldl (fun acc m => if m.name = name then some m else acc) none

/-- `Class::GetMethod`: own methods first, then the parent chain.  The C++
recursion is bounded by the (acyclic, construction-ordered) parent chain;
the fuel `|Γ| + 1` used by `getMethod` dominates any acyclic chain. -/
def getMethodAux (Γ : List ClassD) : Nat → Nat → String → Option Method
  | 0, _, _ => none
  | f + 1, cid, name =>
    match listGet Γ cid with
    | none => none
    | some cd =>
      match lookupMethod cd.methods name with
      | some m => some m
      | none =>
        match cd.parent with
        | some p => getMethodAux Γ f p name
        | none => none

def getMethod (Γ : List ClassD) (cid : Nat) (name : String) : Option Method :=
  getMethodAux Γ (Γ.length + 1) cid name

/-- The classes visited by `Class::GetMethod` starting from `cid`
(the class itself, then its parent chain). -/
def chainClasses (Γ : List ClassD) : Nat → Nat → List Nat
  | 0, _ => []
  | f + 1, cid =>
    match listGet Γ cid with
    | none => []
    | some cd =>
      cid :: (match cd.parent with
              | some p => chainClasses Γ f p
              | none => [])

/-- `ClassInstance::HasMethod`: the method resolved by name must exist and
its formal parameter count must equal the argument count. -/
def hasMethod (Γ : List ClassD) (cid : Nat) (method : String)
    (argument_count : Nat) : Bool :=
  match getMethod Γ cid method with
  | some m => m.formal_params.length == argument_count
  | none => false

/-- The loop in `ClassInstance::Call` binding
`closure[m->formal_params[i]] = actual_args[i]`. -/
def bindParams : Closure → List String → List Obj → Closure
  | c, p :: ps, v :: vs => bindParams (insertClosure c p v) ps vs
  | c, _, _ => c

def classNameD (Γ : List ClassD) (cid : Nat) : String :=
  match listGet Γ cid with
  | some cd => cd.name
  | none => ""

/-- `runtime::IsTrue`: empty holder, `Class` and `ClassInstance` are falsy;
`Number`, `String`, `Bool` by their values. -/
def IsTrue : Obj → Bool
  | .vnone => false
  | .vnum n => decide (n ≠ 0)
  | .vstr s => decide (s ≠ "")
  | .vbool b => b
  | .vclass _ => false
  | .vinst _ => false

/-- The dotted-segment loop of `VariableValue::Execute`: for each id, if
the current holder is a `ClassInstance` move to `fields.at(id)` (which
throws when the field is absent); a holder that is *not* an instance is
left unchanged and the loop continues. -/
def dottedWalk (st : EState) : List String → Obj → Except String Obj
  | [], v => .ok v
  | d :: ds, v =>
    match v with
    | .vinst a =>
      match listGet st.heap a with
      | none => .error "invalid instance"
      | some inst =>
        match lookupClosure inst.fields d with
        | some w => dottedWalk st ds w
        | none => .error "map::at: field not found"
    | _ => dottedWalk st ds v

/-- The two primitive branches of `Add::Execute`: `Number + Number` and
`String + String`; `none` when neither pair of `TryAs` casts succeeds. -/
def addPrim : Obj → Obj → Option Obj
  | .vnum a, .vnum b => some (.vnum (a + b))
  | .vstr a, .vstr b => some (.vstr (a ++ b))
  | _, _ => none

def isInstObj : Obj → Bool
  | .vinst _ => true
  | _ => false

/-- The `os << this` fallback of `ClassInstance::Print` for instances
without `__str__`: an opaque, address-like token (modelled from the heap
address; the spec only requires it non-empty and stable). -/
def instAddrText (a : Nat) : String :=
  "0x" ++ toString a

/-- The C++ call nest `Statement::Execute` / `ClassInstance::Call` /
`Object::Print` / `runtime::Equal`-`Less` and their derived comparators is
mutually recursive through method bodies.  It is embedded as one fueled
function `run` over this task sum; each constructor corresponds to one
C++ function (or loop) of the nest. -/
inductive Task
  | tExecute (stmt : Stmt) (closure : Closure) (st : EState)
  | tExecList (args : List Stmt) (closure : Closure) (st : EState)
  | tCompound (args : List Stmt) (closure : Closure) (st : EState)
  | tPrintArgs (args : List Stmt) (closure : Closure) (st : EState)
  | tCall (a : Nat) (method : String) (actual_args : List Obj) (st : EState)
  | tPrintVal (v : Obj) (st : EState)
  | tEqual (lhs rhs : Obj) (st : EState)
  | tLess (lhs rhs : Obj) (st : EState)
  | tNotEqual (lhs rhs : Obj) (st : EState)
  | tGreater (lhs rhs : Obj) (st : EState)
  | tLessOrEqual (lhs rhs : Obj) (st : EState)
  | tGreaterOrEqual (lhs rhs : Obj) (st : EState)

/-- Results of the evaluator nest.
`rok v c st`: `Execute` returned holder `v`, with the (by-reference)
closure now `c` and world `st`.  `rret v c st`: a thrown `ObjectHolder`
(the non-local `Return` channel) is unwinding.  `rerr msg st`: a thrown
`runtime_error` is unwinding.  `rvals`/`rtext`/`rbool`/`rcallv` are the
ordinary returns of the list-evaluation loops, `Object::Print`,
the comparators and `ClassInstance::Call`.  `rtimeout` is fuel
exhaustion (the C++ ran longer than the fuel allows, e.g. diverges). -/
inductive RRes
  | rok (v : Obj) (closure : Closure) (st : EState)
  | rret (v : Obj) (closure : Closure) (st : EState)
  | rerr (msg : String) (st : EState)
  | rvals (vs : List Obj) (closure : Closure) (st : EState)
  | rtext (text : String) (st : EState)
  | rbool (b : Bool) (st : EState)
  | rcallv (v : Obj) (st : EState)
  | rtimeout
  deriving DecidableEq, Repr

/-- The evaluator.  Every branch is a direct transcription of the
corresponding C++ function in src/mython/statement.cpp and
src/mython/runtime.cpp; `match`-arms `| _ => .rtimeout` absorb result
shapes the corresponding C++ callee can never produce. -/
def run (Γ : List ClassD) : Nat → Task → RRes
  | 0, _ => .rtimeout
  | f + 1, t =>
    match t with
    | .tExecute stmt c st =>
      match stmt with
      | .assign var rv =>
        -- Assignment::Execute: closure[var_] = rv_->Execute(...); return closure[var_]
        match run Γ f (.tExecute rv c st) with
        | .rok v c1 st1 => .rok v (insertClosure c1 var v) st1
        | r => r
      | .varval var_name dotted_ids =>
        -- VariableValue::Execute
        match lookupClosure c var_name with
        | some v =>
          match dottedWalk st dotted_ids v with
          | .ok w => .rok w c st
          | .error msg => .rerr msg st
        | none => .rerr ("Variable \"" ++ var_name ++ "\" is not found") st
      | .printargs args =>
        -- Print::Execute (argument loop, separators and final newline)
        run Γ f (.tPrintArgs args c st)
      | .methodcall object method args =>
        -- MethodCall::Execute
        match run Γ f (.tExecute object c st) with
        | .rok v c1 st1 =>
          match v with
          | .vinst a =>
            match run Γ f (.tExecList args c1 st1) with
            | .rvals vs c2 st2 =>
              match run Γ f (.tCall a method vs st2) with
              | .rcallv w st3 => .rok w c2 st3
              | .rret w _ st3 => .rret w c2 st3
              | .rerr msg st3 => .rerr msg st3
              | _ => .rtimeout
            | .rret w c2 st2 => .rret w c2 st2
            | .rerr msg st2 => .rerr msg st2
            | _ => .rtimeout
          | _ => .rok .vnone c1 st1
        | r => r
      | .stringify argument =>
        -- Stringify::Execute (prints into a local ostringstream)
        match run Γ f (.tExecute argument c st) with
        | .rok v c1 st1 =>
          match v with
          | .vnone => .rok (.vstr "None") c1 st1
          | _ =>
            match run Γ f (.tPrintVal v st1) with
            | .rtext s st2 => .rok (.vstr s) c1 st2
            | .rret w _ st2 => .rret w c1 st2
            | .rerr msg st2 => .rerr msg st2
            | _ => .rtimeout
        | r => r
      | .addop lhs rhs =>
        -- Add::Execute: both operands are evaluated; on the primitive
        -- pairs the sum/concatenation is returned; otherwise lhs_ is
        -- *executed again* to test for ClassInstance, and on success
        -- rhs_ is executed again and __add__ dispatched.
        match run Γ f (.tExecute lhs c st) with
        | .rok v1 c1 st1 =>
          match run Γ f (.tExecute rhs c1 st1) with
          | .rok v2 c2 st2 =>
            match addPrim v1 v2 with
            | some v => .rok v c2 st2
            | none =>
              match run Γ f (.tExecute lhs c2 st2) with
              | .rok v1' c3 st3 =>
                match v1' with
                | .vinst a =>
                  match run Γ f (.tExecute rhs c3 st3) with
                  | .rok v2' c4 st4 =>
                    match run Γ f (.tCall a "__add__" [v2'] st4) with
                    | .rcallv w st5 => .rok w c4 st5
                    | .rret w _ st5 => .rret w c4 st5
                    | .rerr msg st5 => .rerr msg st5
                    | _ => .rtimeout
                  | r => r
                | _ => .rerr "Object addition operation error" st3
              | r => r
          | r => r
        | r => r
      | .subop lhs rhs =>
        match run Γ f (.tExecute lhs c st) with
        | .rok v1 c1 st1 =>
          match run Γ f (.tExecute rhs c1 st1) with
          | .rok v2 c2 st2 =>
            match v1, v2 with
            | .vnum a, .vnum b => .rok (.vnum (a - b)) c2 st2
            | _, _ => .rerr "Object subtraction operation error" st2
          | r => r
        | r => r
      | .multop lhs rhs =>
        match run Γ f (.tExecute lhs c st) with
        | .rok v1 c1 st1 =>
          match run Γ f (.tExecute rhs c1 st1) with
          | .rok v2 c2 st2 =>
            match v1, v2 with
            | .vnum a, .vnum b => .rok (.vnum (a * b)) c2 st2
            | _, _ => .rerr "Object multiplication operation error" st2
          | r => r
        | r => r
      | .divop lhs rhs =>
        match run Γ f (.tExecute lhs c st) with
        | .rok v1 c1 st1 =>
          match run Γ f (.tExecute rhs c1 st1) with
          | .rok v2 c2 st2 =>
            match v1, v2 with
            | .vnum a, .vnum b =>
              -- integer division; division by zero is undefined behaviour
              -- in the source and modelled as an error
              if b = 0 then .rerr "division by zero" st2
              else .rok (.vnum (Int.tdiv a b)) c2 st2
            | _, _ => .rerr "Object division operation error" st2
          | r => r
        | r => r
      | .compound args =>
        -- Compound::Execute
        run Γ f (.tCompound args c st)
      | .returnstmt statement =>
        -- Return::Execute: throw statement_->Execute(closure, context)
        match run Γ f (.tExecute statement c st) with
        | .rok v c1 st1 => .rret v c1 st1
        | r => r
      | .classdef cls =>
        -- ClassDefinition::Execute
        match cls with
        | .vclass cid => .rok cls (insertClosure c (classNameD Γ cid) cls) st
        | _ => .rok .vnone c st
      | .fieldassign object_name object_dotted field_name rv =>
        -- FieldAssignment::Execute
        match run Γ f (.tExecute (.varval object_name object_dotted) c st) with
        | .rok v c1 st1 =>
          match v with
          | .vinst a =>
            match run Γ f (.tExecute rv c1 st1) with
            | .rok w c2 st2 =>
              match listGet st2.heap a with
              | some inst =>
                let inst' := { inst with fields := insertClosure inst.fields field_name w }
                .rok w c2 { st2 with heap := listSet st2.heap a inst' }
              | none => .rerr "invalid instance" st2
            | r => r
          | _ => .rok .vnone c1 st1
        | r => r
      | .ifelse condition if_body else_body =>
        -- IfElse::Execute
        match run Γ f (.tExecute condition c st) with
        | .rok v c1 st1 =>
          if IsTrue v then run Γ f (.tExecute if_body c1 st1)
          else
            match else_body with
            | some e => run Γ f (.tExecute e c1 st1)
            | none => .rok .vnone c1 st1
        | r => r
      | .orop lhs rhs =>
        -- Or::Execute: IsTrue(lhs) || IsTrue(rhs) — the C++ || short-circuits
        match run Γ f (.tExecute lhs c st) with
        | .rok v1 c1 st1 =>
          if IsTrue v1 then .rok (.vbool true) c1 st1
          else
            match run Γ f (.tExecute rhs c1 st1) with
            | .rok v2 c2 st2 => .rok (.vbool (IsTrue v2)) c2 st2
            | r => r
        | r => r
      | .andop lhs rhs =>
        -- And::Execute: IsTrue(lhs) && IsTrue(rhs) — the C++ && short-circuits
        match run Γ f (.tExecute lhs c st) with
        | .rok v1 c1 st1 =>
          if IsTrue v1 then
            match run Γ f (.tExecute rhs c1 st1) with
            | .rok v2 c2 st2 => .rok (.vbool (IsTrue v2)) c2 st2
            | r => r
          else .rok (.vbool false) c1 st1
        | r => r
      | .notop argument =>
        -- Not::Execute
        match run Γ f (.tExecute argument c st) with
        | .rok v c1 st1 => .rok (.vbool (!IsTrue v)) c1 st1
        | r => r
      | .comparison cmp lhs rhs =>
        -- Comparison::Execute
        match run Γ f (.tExecute lhs c st) with
        | .rok v1 c1 st1 =>
          match run Γ f (.tExecute rhs c1 st1) with
          | .rok v2 c2 st2 =>
            let cres := match cmp with
              | .ceq => run Γ f (.tEqual v1 v2 st2)
              | .cne => run Γ f (.tNotEqual v1 v2 st2)
              | .clt => run Γ f (.tLess v1 v2 st2)
              | .cgt => run Γ f (.tGreater v1 v2 st2)
              | .cle => run Γ f (.tLessOrEqual v1 v2 st2)
              | .cge => run Γ f (.tGreaterOrEqual v1 v2 st2)
            match cres with
            | .rbool b st3 => .rok (.vbool b) c2 st3
            | .rret w _ st3 => .rret w c2 st3
            | .rerr msg st3 => .rerr msg st3
            | _ => .rtimeout
          | r => r
        | r => r
      | .newinstance a args =>
        -- NewInstance::Execute
        match listGet st.heap a with
        | some inst =>
          if hasMethod Γ inst.cls "__init__" args.length then
            match run Γ f (.tExecList args c st) with
            | .rvals vs c1 st1 =>
              match run Γ f (.tCall a "__init__" vs st1) with
              | .rcallv _ st2 => .rok (.vinst a) c1 st2
              | .rret w _ st2 => .rret w c1 st2
              | .rerr msg st2 => .rerr msg st2
              | _ => .rtimeout
            | .rret w c1 st1 => .rret w c1 st1
            | .rerr msg st1 => .rerr msg st1
            | _ => .rtimeout
          else .rok (.vinst a) c st
        | none => .rerr "invalid instance" st
      | .methodbody body =>
        -- MethodBody::Execute: catch(ObjectHolder& obj) { return obj; }
        match run Γ f (.tExecute body c st) with
        | .rok _ c1 st1 => .rok .vnone c1 st1
        | .rret v c1 st1 => .rok v c1 st1
        | r => r
    | .tExecList args c st =>
      -- the vector-of-arguments loops of MethodCall::Execute and
      -- NewInstance::Execute
      match args with
      | [] => .rvals [] c st
      | a :: rest =>
        match run Γ f (.tExecute a c st) with
        | .rok v c1 st1 =>
          match run Γ f (.tExecList rest c1 st1) with
          | .rvals vs c2 st2 => .rvals (v :: vs) c2 st2
          | r => r
        | .rret v c1 st1 => .rret v c1 st1
        | .rerr msg st1 => .rerr msg st1
        | _ => .rtimeout
    | .tCompound args c st =>
      -- the statement loop of Compound::Execute
      match args with
      | [] => .rok .vnone c st
      | a :: rest =>
        match run Γ f (.tExecute a c st) with
        | .rok _ c1 st1 => run Γ f (.tCompound rest c1 st1)
        | r => r
    | .tPrintArgs args c st =>
      -- the loop of Print::Execute; after the loop: out << '\n'
      match args with
      | [] => .rok .vnone c { st with output := st.output ++ "\n" }
      | a :: rest =>
        match run Γ f (.tExecute a c st) with
        | .rok v c1 st1 =>
          let tres : RRes := match v with
            | .vnone => .rtext "None" st1
            | _ => run Γ f (.tPrintVal v st1)
          match tres with
          | .rtext s st2 =>
            let sep := if rest.isEmpty then "" else " "
            run Γ f (.tPrintArgs rest c1 { st2 with output := st2.output ++ s ++ sep })
          | .rret w _ st2 => .rret w c1 st2
          | .rerr msg st2 => .rerr msg st2
          | _ => .rtimeout
        | r => r
    | .tCall a method actual_args st =>
      -- ClassInstance::Call
      match listGet st.heap a with
      | some inst =>
        if hasMethod Γ inst.cls method actual_args.length then
          match getMethod Γ inst.cls method with
          | some m =>
            let closure := bindParams (insertClosure [] "self" (.vinst a))
                             m.formal_params actual_args
            match run Γ f (.tExecute m.body closure st) with
            | .rok v _ st1 => .rcallv v st1
            | .rret v _ st1 => .rret v [] st1
            | .rerr msg st1 => .rerr msg st1
            | _ => .rtimeout
          | none => .rerr "Method not found" st
        else .rerr "Method not found" st
      | none => .rerr "invalid instance" st
    | .tPrintVal v st =>
      -- Object::Print dispatch: Number/String by value, Bool::Print,
      -- Class::Print, ClassInstance::Print (with __str__ dispatch)
      match v with
      | .vnone => .rerr "null holder" st
      | .vnum n => .rtext (toString n) st
      | .vstr s => .rtext s st
      | .vbool b => .rtext (if b then "True" else "False") st
      | .vclass cid => .rtext ("Class " ++ classNameD Γ cid) st
      | .vinst a =>
        match listGet st.heap a with
        | some inst =>
          if hasMethod Γ inst.cls "__str__" 0 then
            match run Γ f (.tCall a "__str__" [] st) with
            | .rcallv w st1 => run Γ f (.tPrintVal w st1)
            | .rret w _ st1 => .rret w [] st1
            | .rerr msg st1 => .rerr msg st1
            | _ => .rtimeout
          else .rtext (instAddrText a) st
        | none => .rerr "invalid instance" st
    | .tEqual lhs rhs st =>
      -- runtime::Equal
      match lhs, rhs with
      | .vnone, .vnone => .rbool true st
      | .vnum a, .vnum b => .rbool (decide (a = b)) st
      | .vstr a, .vstr b => .rbool (decide (a = b)) st
      | .vbool a, .vbool b => .rbool (decide (a = b)) st
      | .vinst a, _ =>
        match listGet st.heap a with
        | some inst =>
          if hasMethod Γ inst.cls "__eq__" 1 then
            match run Γ f (.tCall a "__eq__" [rhs] st) with
            | .rcallv w st1 => .rbool (IsTrue w) st1
            | .rret w _ st1 => .rret w [] st1
            | .rerr msg st1 => .rerr msg st1
            | _ => .rtimeout
          else .rerr "Error compare (==) objects" st
        | none => .rerr "invalid instance" st
      | _, _ => .rerr "Error compare (==) objects" st
    | .tLess lhs rhs st =>
      -- runtime::Less
      match lhs, rhs with
      | .vnum a, .vnum b => .rbool (decide (a < b)) st
      | .vstr a, .vstr b => .rbool (decide (a < b)) st
      | .vbool a, .vbool b => .rbool (!a && b) st
      | .vinst a, _ =>
        match listGet st.heap a with
        | some inst =>
          if hasMethod Γ inst.cls "__lt__" 1 then
            match run Γ f (.tCall a "__lt__" [rhs] st) with
            | .rcallv w st1 => .rbool (IsTrue w) st1
            | .rret w _ st1 => .rret w [] st1
            | .rerr msg st1 => .rerr msg st1
            | _ => .rtimeout
          else .rerr "Error compare (<) objects" st
        | none => .rerr "invalid instance" st
      | _, _ => .rerr "Error compare (<) objects" st
    | .tNotEqual lhs rhs st =>
      -- runtime::NotEqual: !Equal(lhs, rhs, context)
      match run Γ f (.tEqual lhs rhs st) with
      | .rbool b st1 => .rbool (!b) st1
      | r => r
    | .tGreater lhs rhs st =>
      -- runtime::Greater: !Less(...) && !Equal(...) — && short-circuits,
      -- so Equal only runs when Less returned false
      match run Γ f (.tLess lhs rhs st) with
      | .rbool true st1 => .rbool false st1
      | .rbool false st1 =>
        match run Γ f (.tEqual lhs rhs st1) with
        | .rbool b st2 => .rbool (!b) st2
        | r => r
      | r => r
    | .tLessOrEqual lhs rhs st =>
      -- runtime::LessOrEqual: !Greater(...)
      match run Γ f (.tGreater lhs rhs st) with
      | .rbool b st1 => .rbool (!b) st1
      | r => r
    | .tGreaterOrEqual lhs rhs st =>
      -- runtime::GreaterOrEqual: !Less(...)
      match run Γ f (.tLess lhs rhs st) with
      | .rbool b st1 => .rbool (!b) st1
      | r => r

/-- `Statement::Execute` entry point. -/
def Execute (Γ : List ClassD) (fuel : Nat) (stmt : Stmt) (closure : Closure)
    (st : EState) : RRes :=
  run Γ fuel (.tExecute stmt closure st)

/-- `ClassInstance::Call` entry point (receiver at heap address `a`). -/
def Call (Γ : List ClassD) (fuel : Nat) (a : Nat) (method : String)
    (actual_args : List Obj) (st : EState) : RRes :=
  run Γ fuel (.tCall a method actual_args st)

def Equal (Γ : List ClassD) (fuel : Nat) (lhs rhs : Obj) (st : EState) : RRes :=
  run Γ fuel (.tEqual lhs rhs st)

def Less (Γ : List ClassD) (fuel : Nat) (lhs rhs : Obj) (st : EState) : RRes :=
  run Γ fuel (.tLess lhs rhs st)

def NotEqual (Γ : List ClassD) (fuel : Nat) (lhs rhs : Obj) (st : EState) : RRes :=
  run Γ fuel (.tNotEqual lhs rhs st)

def Greater (Γ : List ClassD) (fuel : Nat) (lhs rhs : Obj) (st : EState) : RRes :=
  run Γ fuel (.tGreater lhs rhs st)

def LessOrEqual (Γ : List ClassD) (fuel : Nat) (lhs rhs : Obj) (st : EState) : RRes :=
  run Γ fuel (.tLessOrEqual lhs rhs st)

def GreaterOrEqual (Γ : List ClassD) (fuel : Nat) (lhs rhs : Obj) (st : EState) : RRes :=
  run Γ fuel (.tGreaterOrEqual lhs rhs st)

/-! ### Spec-side reference semantics (for refinement comparisons)

These definitions follow the *spec's words*, not the source; they exist
only to be compared against the embedded code. -/

/-- Spec semantics of `Add`: "Evaluation order: lhs then rhs", each
exactly once; integer+integer → integer, string+string → concatenation,
`ClassInstance` lhs → `__add__(rhs)` with arity 1, otherwise TypeError. -/
def specAdd (Γ : List ClassD) (f : Nat) (lhs rhs : Stmt) (c : Closure)
    (st : EState) : RRes :=
  match Execute Γ f lhs c st with
  | .rok v1 c1 st1 =>
    match Execute Γ f rhs c1 st1 with
    | .rok v2 c2 st2 =>
      match addPrim v1 v2 with
      | some v => .rok v c2 st2
      | none =>
        match v1 with
        | .vinst a =>
          match Call Γ f a "__add__" [v2] st2 with
          | .rcallv w st3 => .rok w c2 st3
          | .rret w _ st3 => .rret w c2 st3
          | .rerr msg st3 => .rerr msg st3
          | _ => .rtimeout
        | _ => .rerr "Object addition operation error" st2
    | r => r
  | r => r

/-- Spec semantics of `Or`: "evaluate both operands (no short-circuit)";
yield a fresh `Bool` of the disjunction of their truthiness. -/
def specOr (Γ : List ClassD) (f : Nat) (lhs rhs : Stmt) (c : Closure)
    (st : EState) : RRes :=
  match Execute Γ f lhs c st with
  | .rok v1 c1 st1 =>
    match Execute Γ f rhs c1 st1 with
    | .rok v2 c2 st2 => .rok (.vbool (IsTrue v1 || IsTrue v2)) c2 st2
    | r => r
  | r => r

/-! ### Fixtures used by the concrete theorems -/

/-- Empty class table. -/
def G0 : List ClassD := []

/-- Empty world. -/
def st0 : EState := ⟨[], ""⟩

/-- One class `C` with `__add__(self, o)` whose body returns `o`, and a
world holding a single uninitialized instance of it at address 0. -/
def G4 : List ClassD :=
  [⟨"C", [⟨"__add__", ["o"], .methodbody (.returnstmt (.varval "o" []))⟩], none⟩]

def st4 : EState := ⟨[⟨0, []⟩], ""⟩

/-- Closure for the `Add` counterexample: an instance, a counter `n` and
the constant `one` (the AST has no literal nodes in src/, so literals are
read from the closure). -/
def c4 : Closure := [("x", .vinst 0), ("n", .vnum 10), ("one", .vnum 1)]

/-- The side-effecting right operand `n = n - one`: each evaluation
decrements `n`, making evaluation counts observable. -/
def decR : Stmt := .assign "n" (.subop (.varval "n" []) (.varval "one" []))

/-- Class `A` with `__init__(self, p, q)` (arity 2) and derived class `B`
overriding nothing; a world with one uninitialized `B` instance. -/
def G8 : List ClassD :=
  [⟨"A", [⟨"__init__", ["p", "q"], .compound []⟩], none⟩, ⟨"B", [], some 0⟩]

def st8 : EState := ⟨[⟨1, []⟩], ""⟩

/-! ## The claims -/

/-- C1: the claim says every finite input eventually yields `Eof` and
`Eof` is then stable.  The code violates it: on the input `"  x"` (an
indented final line with no trailing newline), after the tokens `Indent`,
`Id "x"`, `Newline` the lexer reaches end-of-stream with
`is_start_line`, `cur_indent = indent = 1`, and `ProcEndStream` emits
nothing at all — `NextToken` returns the stale `Newline` forever and no
`Eof` is ever produced.  This theorem proves that no number of
`next_token()` calls ever makes `current_token()` equal `Eof`. -/
theorem c1_eof_never_reached :
    ∀ n : Nat, CurrentToken (nextTokenIter n (lexInit "  x")) ≠ some Tok.eof := by
  have hfix : NextToken (nextTokenIter 3 (lexInit "  x")) =
      nextTokenIter 3 (lexInit "  x") := by decide
  have haux : ∀ k : Nat, nextTokenIter (k + 3) (lexInit "  x") =
      nextTokenIter 3 (lexInit "  x") := by
    intro k
    induction k with
    | zero => rfl
    | succ k ih =>
      have hstep : nextTokenIter (k + 1 + 3) (lexInit "  x") =
          NextToken (nextTokenIter (k + 3) (lexInit "  x")) := rfl
      rw [hstep, ih, hfix]
  intro n
  rcases n with _ | _ | _ | k
  · decide
  · decide
  · decide
  · show CurrentToken (nextTokenIter (k + 3) (lexInit "  x")) ≠ some Tok.eof
    rw [haux k]
    decide

/-- C2: the claim says a line of only whitespace leaves `target_indent`
unaffected and the `Indent`/`Dedent` synthesis for later lines is as if
the blank line were absent.  The code violates it: `ProcSpace` assigns
`indent = space_count / 2` whenever `is_start_line`, even when the line
then turns out to be blank, and the blank-line branch of `ProcEndOfLine`
does not reset it.  On `"  \nx"` the whitespace-only first line sets
`target_indent` to 1 and the unindented following line `x` is preceded by
a spurious `Indent`, while on `"x"` alone the first token is `Id "x"`. -/
theorem c2_blank_line_shifts_indent :
    CurrentToken (lexInit "  \nx") = some Tok.indent ∧
    (lexInit "  \nx").indent = 1 ∧
    CurrentToken (lexInit "x") = some (Tok.id "x") := by
  decide

/-- C10: inside a string literal, a backslash followed by any character
other than `'`, `"`, `n`, `t` consumes both characters and contributes
nothing to the token's value: the escape loop of `ProcShielding` simply
continues on the rest of the input with the accumulator unchanged. -/
theorem c10_escape_dropped (quotes e : Char) (acc : String) (rest : List Char)
    (hq : quotes = '\'' ∨ quotes = '"')
    (h1 : e ≠ '\'') (h2 : e ≠ '"') (h3 : e ≠ 'n') (h4 : e ≠ 't') :
    shieldLoop quotes ('\\' :: e :: rest) acc = shieldLoop quotes rest acc := by
  have hbq : ('\\' : Char) ≠ quotes := by
    rcases hq with h | h <;> simp [h]
  simp [shieldLoop, hbq, h1, h2, h3, h4]

/-- Witness for C10 at the concrete literal `"a\xb"` position: the
escaped `x` is dropped. -/
theorem c10_witness :
    (('"' : Char) = '\'' ∨ ('"' : Char) = '"') ∧
    shieldLoop '"' ('\\' :: 'x' :: ['b', '"']) "a" = shieldLoop '"' ['b', '"'] "a" :=
  ⟨Or.inr rfl,
   c10_escape_dropped '"' 'x' "a" ['b', '"'] (Or.inr rfl)
     (by decide) (by decide) (by decide) (by decide)⟩

/-- C3 counterexample: the claim says `And`/`Or` evaluate *both* operands
(both side effects occur).  In the code the C++ `||`/`&&` short-circuit:
with a truthy left operand, `Or` never executes the right operand.  Here
the right operand is the assignment `xx = t`; after the `Or` the closure
is unchanged (no `xx` binding), while the spec-side semantics `specOr`
(both operands evaluated) binds `xx`. -/
theorem c3_counterexample :
    Execute G0 9 (.orop (.varval "t" []) (.assign "xx" (.varval "t" [])))
        [("t", .vbool true)] st0 =
      .rok (.vbool true) [("t", .vbool true)] st0 ∧
    specOr G0 9 (.varval "t" []) (.assign "xx" (.varval "t" []))
        [("t", .vbool true)] st0 =
      .rok (.vbool true) [("t", .vbool true), ("xx", .vbool true)] st0 :=
  ⟨rfl, rfl⟩

/-- C3 (amended): `Or` always evaluates the left operand, and evaluates
the right operand only when the left is falsy (`And`: only when the left
is truthy); when the evaluated operands succeed, the node yields a fresh
`Bool` equal to the disjunction (conjunction) of the truthiness of the
operand values, with the closure and world of the last operand actually
evaluated. -/
theorem c3_and_or_short_circuit (Γ : List ClassD) (f : Nat) (lhs rhs : Stmt)
    (c : Closure) (st : EState) (v1 : Obj) (c1 : Closure) (st1 : EState)
    (v2 : Obj) (c2 : Closure) (st2 : EState)
    (hl : Execute Γ f lhs c st = .rok v1 c1 st1)
    (hr : Execute Γ f rhs c1 st1 = .rok v2 c2 st2) :
    Execute Γ (f + 1) (.orop lhs rhs) c st =
      .rok (.vbool (IsTrue v1 || IsTrue v2)) (if IsTrue v1 then c1 else c2)
        (if IsTrue v1 then st1 else st2) ∧
    Execute Γ (f + 1) (.andop lhs rhs) c st =
      .rok (.vbool (IsTrue v1 && IsTrue v2)) (if IsTrue v1 then c2 else c1)
        (if IsTrue v1 then st2 else st1) := by
  simp only [Execute] at *
  cases hv : IsTrue v1 <;> simp [run, hl, hr, hv]

/-- Witness for C3 at concrete operands. -/
theorem c3_witness :
    Execute G0 1 (.varval "t" []) [("t", .vbool true)] st0 =
      .rok (.vbool true) [("t", .vbool true)] st0 ∧
    Execute G0 2 (.orop (.varval "t" []) (.varval "t" []))
        [("t", .vbool true)] st0 =
      .rok (.vbool true) [("t", .vbool true)] st0 :=
  ⟨rfl,
   (c3_and_or_short_circuit G0 1 (.varval "t" []) (.varval "t" [])
       [("t", .vbool true)] st0 (.vbool true) [("t", .vbool true)] st0
       (.vbool true) [("t", .vbool true)] st0 rfl rfl).1⟩

/-- C4 counterexample: the claim says `Add` evaluates each operand exactly
once.  In the code, when the primitive pairs do not match, `Add::Execute`
*re-executes* `lhs_` (to test for `ClassInstance`) and then re-executes
`rhs_` for the `__add__` argument.  With the side-effecting right operand
`n = n - one` and an instance on the left, the code decrements `n` twice
(final value 8, `__add__` receives 8), while the spec-side `specAdd`
(each operand once) leaves `n = 9` and passes 9. -/
theorem c4_counterexample :
    Execute G4 20 (.addop (.varval "x" []) decR) c4 st4 =
      .rok (.vnum 8) [("x", .vinst 0), ("n", .vnum 8), ("one", .vnum 1)] st4 ∧
    specAdd G4 20 (.varval "x" []) decR c4 st4 =
      .rok (.vnum 9) [("x", .vinst 0), ("n", .vnum 9), ("one", .vnum 1)] st4 :=
  ⟨rfl, rfl⟩

/-- C4 (amended): `Add` evaluates lhs then rhs; if the values are two
`Number`s the result is their sum and if two `String`s their
concatenation, in both cases with each operand evaluated exactly once;
otherwise lhs and rhs are each evaluated a *second* time, and if the
re-evaluated lhs is a `ClassInstance`, `__add__` (arity 1) is dispatched
on the re-evaluated rhs value; if the re-evaluated lhs is not an
instance, execution fails with the TypeError
"Object addition operation error". -/
theorem c4_add_semantics (Γ : List ClassD) :
    (∀ f lhs rhs c st (a b : Int) c1 st1 c2 st2,
      Execute Γ f lhs c st = .rok (.vnum a) c1 st1 →
      Execute Γ f rhs c1 st1 = .rok (.vnum b) c2 st2 →
      Execute Γ (f + 1) (.addop lhs rhs) c st = .rok (.vnum (a + b)) c2 st2) ∧
    (∀ f lhs rhs c st (a b : String) c1 st1 c2 st2,
      Execute Γ f lhs c st = .rok (.vstr a) c1 st1 →
      Execute Γ f rhs c1 st1 = .rok (.vstr b) c2 st2 →
      Execute Γ (f + 1) (.addop lhs rhs) c st = .rok (.vstr (a ++ b)) c2 st2) ∧
    (∀ f lhs rhs c st v1 c1 st1 v2 c2 st2 ad c3 st3 v2' c4' st4' w st5,
      Execute Γ f lhs c st = .rok v1 c1 st1 →
      Execute Γ f rhs c1 st1 = .rok v2 c2 st2 →
      addPrim v1 v2 = none →
      Execute Γ f lhs c2 st2 = .rok (.vinst ad) c3 st3 →
      Execute Γ f rhs c3 st3 = .rok v2' c4' st4' →
      Call Γ f ad "__add__" [v2'] st4' = .rcallv w st5 →
      Execute Γ (f + 1) (.addop lhs rhs) c st = .rok w c4' st5) ∧
    (∀ f lhs rhs c st v1 c1 st1 v2 c2 st2 v1' c3 st3,
      Execute Γ f lhs c st = .rok v1 c1 st1 →
      Execute Γ f rhs c1 st1 = .rok v2 c2 st2 →
      addPrim v1 v2 = none →
      Execute Γ f lhs c2 st2 = .rok v1' c3 st3 →
      isInstObj v1' = false →
      Execute Γ (f + 1) (.addop lhs rhs) c st =
        .rerr "Object addition operation error" st3) := by
  refine ⟨?_, ?_, ?_, ?_⟩
  · intro f lhs rhs c st a b c1 st1 c2 st2 hl hr
    simp only [Execute] at *
    simp [run, hl, hr, addPrim]
  · intro f lhs rhs c st a b c1 st1 c2 st2 hl hr
    simp only [Execute] at *
    simp [run, hl, hr, addPrim]
  · intro f lhs rhs c st v1 c1 st1 v2 c2 st2 ad c3 st3 v2' c4' st4' w st5
      hl hr hprim hl2 hr2 hcall
    simp only [Execute, Call] at *
    simp [run, hl, hr, hprim, hl2, hr2, hcall]
  · intro f lhs rhs c st v1 c1 st1 v2 c2 st2 v1' c3 st3 hl hr hprim hl2 hni
    simp only [Execute] at *
    cases v1' with
    | vinst a => simp [isInstObj] at hni
    | vnone => simp [run, hl, hr, hprim, hl2]
    | vnum n => simp [run, hl, hr, hprim, hl2]
    | vstr s => simp [run, hl, hr, hprim, hl2]
    | vbool b => simp [run, hl, hr, hprim, hl2]
    | vclass cid => simp [run, hl, hr, hprim, hl2]

/-- Witness for C4 at concrete integer operands. -/
theorem c4_witness :
    Execute G0 1 (.varval "p" []) [("p", .vnum 2), ("q", .vnum 3)] st0 =
      .rok (.vnum 2) [("p", .vnum 2), ("q", .vnum 3)] st0 ∧
    Execute G0 2 (.addop (.varval "p" []) (.varval "q" []))
        [("p", .vnum 2), ("q", .vnum 3)] st0 =
      .rok (.vnum 5) [("p", .vnum 2), ("q", .vnum 3)] st0 :=
  ⟨rfl, (c4_add_semantics G0).1 1 _ _ _ _ 2 3 _ _ _ _ rfl rfl⟩

/-- C5 counterexample: the claim says a dotted segment applied to a value
that is not a `ClassInstance` fails with `AttrError`.  In the code the
dotted loop only acts when the `TryAs<ClassInstance>` cast succeeds; on a
non-instance it silently keeps the current holder and moves on.  Reading
`x.f` where `x` is the number 5 returns 5 with no error. -/
theorem c5_counterexample :
    Execute G0 3 (.varval "x" ["f"]) [("x", .vnum 5)] st0 =
      .rok (.vnum 5) [("x", .vnum 5)] st0 :=
  rfl

/-- C5 (amended): if the head name is absent from the closure, execution
fails with the NameError message; for each dotted segment, if the current
value is a `ClassInstance` whose field scope lacks the segment the walk
fails (the `fields.at` out-of-range error), if the field exists the walk
descends into it, and if the current value is *not* an instance the
segment is silently skipped with the value unchanged (no error). -/
theorem c5_varval_semantics (Γ : List ClassD) :
    (∀ f var_name ds c st, lookupClosure c var_name = none →
      Execute Γ (f + 1) (.varval var_name ds) c st =
        .rerr ("Variable \"" ++ var_name ++ "\" is not found") st) ∧
    (∀ st d ds v, isInstObj v = false →
      dottedWalk st (d :: ds) v = dottedWalk st ds v) ∧
    (∀ st d ds a inst, listGet st.heap a = some inst →
      lookupClosure inst.fields d = none →
      dottedWalk st (d :: ds) (.vinst a) = .error "map::at: field not found") ∧
    (∀ st d ds a inst w, listGet st.heap a = some inst →
      lookupClosure inst.fields d = some w →
      dottedWalk st (d :: ds) (.vinst a) = dottedWalk st ds w) ∧
    (∀ f var_name ds c st v, lookupClosure c var_name = some v →
      Execute Γ (f + 1) (.varval var_name ds) c st =
        (match dottedWalk st ds v with
         | .ok w => .rok w c st
         | .error msg => .rerr msg st)) := by
  refine ⟨?_, ?_, ?_, ?_, ?_⟩
  · intro f var_name ds c st h
    simp [Execute, run, h]
  · intro st d ds v hni
    cases v with
    | vinst a => simp [isInstObj] at hni
    | vnone => simp [dottedWalk]
    | vnum n => simp [dottedWalk]
    | vstr s => simp [dottedWalk]
    | vbool b => simp [dottedWalk]
    | vclass cid => simp [dottedWalk]
  · intro st d ds a inst hh hf
    simp [dottedWalk, hh, hf]
  · intro st d ds a inst w hh hf
    simp [dottedWalk, hh, hf]
  · intro f var_name ds c st v h
    simp [Execute, run, h]

/-- Witness for C5: absent head name fails with the NameError message. -/
theorem c5_witness :
    lookupClosure [] "q" = none ∧
    Execute G0 1 (.varval "q" []) [] st0 =
      .rerr ("Variable \"" ++ "q" ++ "\" is not found") st0 :=
  ⟨rfl, (c5_varval_semantics G0).1 0 "q" [] [] st0 rfl⟩

/-- C6: the non-local return contract.  A `rret` (thrown `ObjectHolder`)
produced by the body makes the enclosing `MethodBody` yield exactly that
value; a normally completing body makes it yield `None`; a runtime error
passes through `MethodBody` as an error, never as a value.  `Return`
converts its evaluated expression into the return channel, and the
channel propagates unchanged through an enclosing `Compound`. -/
theorem c6_return_transfer (Γ : List ClassD) :
    (∀ f body c st v c1 st1,
      Execute Γ f body c st = .rret v c1 st1 →
      Execute Γ (f + 1) (.methodbody body) c st = .rok v c1 st1) ∧
    (∀ f body c st v c1 st1,
      Execute Γ f body c st = .rok v c1 st1 →
      Execute Γ (f + 1) (.methodbody body) c st = .rok .vnone c1 st1) ∧
    (∀ f body c st msg st1,
      Execute Γ f body c st = .rerr msg st1 →
      Execute Γ (f + 1) (.methodbody body) c st = .rerr msg st1) ∧
    (∀ f e c st v c1 st1,
      Execute Γ f e c st = .rok v c1 st1 →
      Execute Γ (f + 1) (.returnstmt e) c st = .rret v c1 st1) ∧
    (∀ f s rest c st v c1 st1,
      Execute Γ f s c st = .rret v c1 st1 →
      Execute Γ (f + 1 + 1) (.compound (s :: rest)) c st = .rret v c1 st1) := by
  refine ⟨?_, ?_, ?_, ?_, ?_⟩
  · intro f body c st v c1 st1 h
    simp only [Execute] at h ⊢
    simp [run, h]
  · intro f body c st v c1 st1 h
    simp only [Execute] at h ⊢
    simp [run, h]
  · intro f body c st msg st1 h
    simp only [Execute] at h ⊢
    simp [run, h]
  · intro f e c st v c1 st1 h
    simp only [Execute] at h ⊢
    simp [run, h]
  · intro f s rest c st v c1 st1 h
    simp only [Execute] at h ⊢
    simp [run, h]

/-- Witness for C6: a `Return` nested in a `Compound` under a
`MethodBody` yields the returned value and skips the rest of the body. -/
theorem c6_witness :
    Execute G0 5
        (.compound [.returnstmt (.varval "y" []), .assign "z" (.varval "y" [])])
        [("y", .vnum 7)] st0 = .rret (.vnum 7) [("y", .vnum 7)] st0 ∧
    Execute G0 6
        (.methodbody (.compound [.returnstmt (.varval "y" []),
                                 .assign "z" (.varval "y" [])]))
        [("y", .vnum 7)] st0 = .rok (.vnum 7) [("y", .vnum 7)] st0 :=
  ⟨rfl, (c6_return_transfer G0).1 5 _ _ _ _ _ _ rfl⟩

/-- C7: the derived comparators compute exactly the boolean combinations
the claim states (`not_equal = !equal`; `greater = !less && !equal`, with
the C++ `&&` short-circuit so `equal` only runs when `less` was false;
`less_or_equal = !greater`; `greater_or_equal = !less`), and on
primitives of equal variant `equal(x, x)` is true and `less(x, x)` is
false. -/
theorem c7_derived_comparators (Γ : List ClassD) :
    (∀ f l r st b st1, Equal Γ f l r st = .rbool b st1 →
      NotEqual Γ (f + 1) l r st = .rbool (!b) st1) ∧
    (∀ f l r st st1, Less Γ f l r st = .rbool true st1 →
      Greater Γ (f + 1) l r st = .rbool false st1) ∧
    (∀ f l r st st1 b st2, Less Γ f l r st = .rbool false st1 →
      Equal Γ f l r st1 = .rbool b st2 →
      Greater Γ (f + 1) l r st = .rbool (!b) st2) ∧
    (∀ f l r st b st1, Greater Γ f l r st = .rbool b st1 →
      LessOrEqual Γ (f + 1) l r st = .rbool (!b) st1) ∧
    (∀ f l r st b st1, Less Γ f l r st = .rbool b st1 →
      GreaterOrEqual Γ (f + 1) l r st = .rbool (!b) st1) ∧
    (∀ f (n : Int) st,
      Equal Γ (f + 1) (.vnum n) (.vnum n) st = .rbool true st ∧
      Less Γ (f + 1) (.vnum n) (.vnum n) st = .rbool false st) ∧
    (∀ f (s : String) st,
      Equal Γ (f + 1) (.vstr s) (.vstr s) st = .rbool true st ∧
      Less Γ (f + 1) (.vstr s) (.vstr s) st = .rbool false st) ∧
    (∀ f (b : Bool) st,
      Equal Γ (f + 1) (.vbool b) (.vbool b) st = .rbool true st ∧
      Less Γ (f + 1) (.vbool b) (.vbool b) st = .rbool false st) := by
  refine ⟨?_, ?_, ?_, ?_, ?_, ?_, ?_, ?_⟩
  · intro f l r st b st1 h
    simp only [NotEqual, Equal] at *
    simp [run, h]
  · intro f l r st st1 h
    simp only [Greater, Less] at *
    simp [run, h]
  · intro f l r st st1 b st2 h1 h2
    simp only [Greater, Less, Equal] at *
    simp [run, h1, h2]
  · intro f l r st b st1 h
    simp only [LessOrEqual, Greater] at *
    simp [run, h]
  · intro f l r st b st1 h
    simp only [GreaterOrEqual, Less] at *
    simp [run, h]
  · intro f n st
    constructor
    · simp [Equal, run]
    · simp [Less, run]
  · intro f s st
    constructor
    · simp [Equal, run]
    · simp [Less, run, lt_self_iff_false]
  · intro f b st
    constructor
    · simp [Equal, run]
    · cases b <;> simp [Less, run]

/-- Witness for C7: `NotEqual` on distinct numbers via conjunct 1. -/
theorem c7_witness :
    Equal G0 1 (.vnum 2) (.vnum 3) st0 = .rbool false st0 ∧
    NotEqual G0 2 (.vnum 2) (.vnum 3) st0 = .rbool true st0 :=
  ⟨rfl, (c7_derived_comparators G0).1 1 _ _ _ false _ rfl⟩

/-- Every successful `Class::GetMethod` lookup comes from some class on
the visited parent chain. -/
theorem getMethodAux_chain (Γ : List ClassD) :
    ∀ f cid name m, getMethodAux Γ f cid name = some m →
      ∃ cid' cd, cid' ∈ chainClasses Γ f cid ∧ listGet Γ cid' = some cd ∧
        lookupMethod cd.methods name = some m := by
  intro f
  induction f with
  | zero =>
    intro cid name m h
    simp [getMethodAux] at h
  | succ f ih =>
    intro cid name m h
    cases hg : listGet Γ cid with
    | none => simp [getMethodAux, hg] at h
    | some cd =>
      cases hm : lookupMethod cd.methods name with
      | some m' =>
        simp only [getMethodAux, hg, hm, Option.some.injEq] at h
        subst h
        exact ⟨cid, cd, by simp [chainClasses, hg], hg, hm⟩
      | none =>
        cases hp : cd.parent with
        | none => simp [getMethodAux, hg, hm, hp] at h
        | some p =>
          simp only [getMethodAux, hg, hm, hp] at h
          obtain ⟨cid', cd', hmem, hget, hlook⟩ := ih p name m h
          refine ⟨cid', cd', ?_, hget, hlook⟩
          simp only [chainClasses, hg, hp]
          exact List.mem_cons_of_mem _ hmem

/-- C8: when neither the instance's class nor any class on its parent
chain has an `__init__` whose formal-parameter count equals the number
of argument expressions, `NewInstance::Execute` raises no error, never
evaluates any argument expression (closure and world are returned
untouched), and yields the shared holder over the uninitialized
instance. -/
theorem c8_newinstance_no_init (Γ : List ClassD) (f a : Nat) (args : List Stmt)
    (c : Closure) (st : EState) (inst : Inst)
    (hheap : listGet st.heap a = some inst)
    (hno : ∀ cid' ∈ chainClasses Γ (Γ.length + 1) inst.cls, ∀ cd,
      listGet Γ cid' = some cd →
      ∀ m, lookupMethod cd.methods "__init__" = some m →
        m.formal_params.length ≠ args.length) :
    Execute Γ (f + 1) (.newinstance a args) c st = .rok (.vinst a) c st := by
  have hhm : hasMethod Γ inst.cls "__init__" args.length = false := by
    unfold hasMethod getMethod
    cases hg : getMethodAux Γ (Γ.length + 1) inst.cls "__init__" with
    | none => rfl
    | some m =>
      obtain ⟨cid', cd, hmem, hget, hlook⟩ := getMethodAux_chain Γ _ _ _ _ hg
      have hne := hno cid' hmem cd hget m hlook
      simp only [beq_eq_false_iff_ne, ne_eq]
      exact hne
  simp only [Execute]
  simp [run, hheap, hhm]

/-- Witness for C8: class `B` derives from `A`; `A` has `__init__` of
arity 2; constructing `B` with one (unevaluatable!) argument expression
succeeds untouched. -/
theorem c8_witness :
    listGet st8.heap 0 = some ⟨1, []⟩ ∧
    Execute G8 5 (.newinstance 0 [.varval "boom" []]) [] st8 =
      .rok (.vinst 0) [] st8 := by
  refine ⟨rfl, c8_newinstance_no_init G8 4 0 [.varval "boom" []] [] st8 ⟨1, []⟩ rfl ?_⟩
  intro cid' hmem cd hget m hlook
  have hch : chainClasses G8 (G8.length + 1) 1 = [1, 0] := rfl
  rw [show (⟨1, []⟩ : Inst).cls = 1 from rfl, hch] at hmem
  simp only [List.mem_cons, List.mem_singleton, List.not_mem_nil, or_false] at hmem
  rcases hmem with rfl | rfl
  · have h1 : listGet G8 1 = some ⟨"B", [], some 0⟩ := rfl
    rw [h1] at hget
    injection hget with hcd
    subst hcd
    simp [lookupMethod] at hlook
  · have h0 : listGet G8 0 =
        some ⟨"A", [⟨"__init__", ["p", "q"], .compound []⟩], none⟩ := rfl
    rw [h0] at hget
    injection hget with hcd
    subst hcd
    have h2 : lookupMethod
        ([⟨"__init__", ["p", "q"], .compound []⟩] : List Method) "__init__" =
        some ⟨"__init__", ["p", "q"], .compound []⟩ := rfl
    rw [h2] at hlook
    injection hlook with hm
    subst hm
    decide

/-- C9: when the target `VariableValue` of a `FieldAssignment` evaluates
to a non-instance, execution yields `None`, the right-hand side is never
evaluated, and neither the closure nor any instance field scope is
modified (the target read itself is pure, so closure and world equal the
incoming ones). -/
theorem c9_fieldassign_non_instance (Γ : List ClassD) (f : Nat)
    (object_name : String) (object_dotted : List String) (field_name : String)
    (rv : Stmt) (c : Closure) (st : EState) (v : Obj) (c1 : Closure) (st1 : EState)
    (h : Execute Γ f (.varval object_name object_dotted) c st = .rok v c1 st1)
    (hni : isInstObj v = false) :
    Execute Γ (f + 1) (.fieldassign object_name object_dotted field_name rv) c st =
      .rok .vnone c1 st1 ∧ c1 = c ∧ st1 = st := by
  have hpure : c1 = c ∧ st1 = st := by
    cases f with
    | zero => simp [Execute, run] at h
    | succ f' =>
      cases hl : lookupClosure c object_name with
      | none => simp [Execute, run, hl] at h
      | some w =>
        cases hd : dottedWalk st object_dotted w with
        | ok u =>
          simp only [Execute, run, hl, hd, RRes.rok.injEq] at h
          exact ⟨h.2.1.symm, h.2.2.symm⟩
        | error msg => simp [Execute, run, hl, hd] at h
  obtain ⟨hc, hst⟩ := hpure
  subst hc
  subst hst
  refine ⟨?_, rfl, rfl⟩
  simp only [Execute] at h ⊢
  cases v with
  | vinst a => simp [isInstObj] at hni
  | vnone => simp [run, h]
  | vnum n => simp [run, h]
  | vstr s => simp [run, h]
  | vbool b => simp [run, h]
  | vclass cid => simp [run, h]

/-- Witness for C9: assigning a field through a number-valued variable
yields `None` and binds nothing. -/
theorem c9_witness :
    Execute G0 1 (.varval "x" []) [("x", .vnum 5)] st0 =
      .rok (.vnum 5) [("x", .vnum 5)] st0 ∧
    (Execute G0 2 (.fieldassign "x" [] "f" (.assign "zz" (.varval "x" [])))
        [("x", .vnum 5)] st0 = .rok .vnone [("x", .vnum 5)] st0 ∧
      ([("x", .vnum 5)] : Closure) = [("x", .vnum 5)] ∧ st0 = st0) :=
  ⟨rfl, c9_fieldassign_non_instance G0 1 "x" [] "f" _ _ _ _ _ _ rfl rfl⟩

end Mython
